import Mathlib

set_option autoImplicit false
set_option linter.unusedVariables false

/-
Verification model of ssbh.py, a Singularity sandbox build helper.

The Python program is embedded shallowly:
  - parsing-heavy strings (os-release lines, command-line options, /proc
    cmdline records) are modelled as lists of characters (Str) so that
    proofs can proceed by structural induction;
  - paths, commands and file contents are Lean String values;
  - the effectful build pipeline is modelled by a state-and-error monad M
    over an explicit World; external subprocesses (the singularity binary,
    package managers) are modelled as events appended to a trace, and are
    assumed to succeed, since the program treats a non-zero exit as fatal
    and no verified property depends on a failing external command.
-/

abbrev Str := List Char

/-- Association-list lookup, first match wins. Together with ainsert this
models a Python dict: ainsert keeps keys unique. -/
def alookup {α β : Type} [DecidableEq α] : List (α × β) → α → Option β
  | [], _ => none
  | p :: rest, k => if p.1 = k then some p.2 else alookup rest k

/-- Dict assignment d[k] = v: any existing binding of k is replaced. -/
def ainsert {α β : Type} [DecidableEq α] : List (α × β) → α → β → List (α × β)
  | [], k, v => [(k, v)]
  | p :: rest, k, v => if p.1 = k then ainsert rest k v else p :: ainsert rest k v

/-- Does the second list start with the first one? -/
def beginsWith : Str → Str → Bool
  | [], _ => true
  | _ :: _, [] => false
  | a :: as, b :: bs => (a == b) && beginsWith as bs

/-- Python "sub in s": does s end with sub? Used for the haveged check. -/
def endsWithL (sub l : Str) : Bool :=
  beginsWith sub.reverse l.reverse

/-- Python "sub in s": substring containment, used for the avahi check. -/
def listHasSub (sub : Str) : Str → Bool
  | [] => sub.isEmpty
  | c :: rest => beginsWith sub (c :: rest) || listHasSub sub rest

/-- State of one PID cmdline record as the scan in ps_bins sees it.
absent: the record does not exist, so the glob never yields it.
vanish: the glob yielded the path but the record was gone (or unreadable)
by the time open ran, the race with process exit.
present: the record exists and holds these bytes. -/
inductive Cmdline where
  | absent
  | vanish
  | present (c : Str)
deriving DecidableEq

/-- The glob pattern [0-9]* : a name whose first character is a digit. -/
def digitInitial (n : Str) : Bool :=
  match n with
  | [] => false
  | c :: _ => c.isDigit

/-- fh.readline(): the first line of the record, including the newline when
one is present. -/
def readline : Str → Str
  | [] => []
  | c :: rest => if c = '\n' then ['\n'] else c :: readline rest

/-- line.split(NUL)[0]: the prefix of the line before the first NUL byte. -/
def firstField : Str → Str
  | [] => []
  | c :: rest => if c = '\x00' then [] else c :: firstField rest

/-- s.add(x) on a Python set, modelled as an insertion-ordered list without
duplicates. -/
def setAdd (s : List Str) (x : Str) : List Str :=
  if x ∈ s then s else s ++ [x]

def psBinsGo : List (Str × Cmdline) → List Str → Except String (List Str)
  | [], s => .ok s
  | (n, c) :: rest, s =>
    if digitInitial n then
      match c with
      | .absent => psBinsGo rest s
      | .vanish => .error "No such file or directory"
      | .present d =>
        psBinsGo rest
          (if firstField (readline d) ≠ [] then setAdd s (firstField (readline d)) else s)
    else psBinsGo rest s

/-- ps_bins(path): for every record matched by the glob [0-9]star/cmdline
under the proc root, open and read it and collect the non-empty first
NUL-separated fields. The source has no exception handler, so opening a
vanished record propagates the error. -/
def ps_bins (proc : List (Str × Cmdline)) : Except String (List Str) :=
  psBinsGo proc []

def isNumericName (n : Str) : Bool :=
  !n.isEmpty && n.all Char.isDigit

/-- The snapshot described by the spec sentence: the non-empty first fields
of the records of directories whose names are purely numeric. -/
def specSnapshotNumeric : List (Str × Cmdline) → List Str
  | [] => []
  | (n, .present d) :: rest =>
    if isNumericName n then
      if firstField (readline d) ≠ [] then firstField (readline d) :: specSnapshotNumeric rest
      else specSnapshotNumeric rest
    else specSnapshotNumeric rest
  | _ :: rest => specSnapshotNumeric rest

/-- The snapshot the code computes: as specSnapshotNumeric but over every
directory whose name merely starts with a digit, as the glob matches. -/
def specSnapshotGlob : List (Str × Cmdline) → List Str
  | [] => []
  | (n, .present d) :: rest =>
    if digitInitial n then
      if firstField (readline d) ≠ [] then firstField (readline d) :: specSnapshotGlob rest
      else specSnapshotGlob rest
    else specSnapshotGlob rest
  | _ :: rest => specSnapshotGlob rest

/-- Field-splitting state of the csv reader. -/
inductive CsvMode where
  | start
  | unquoted
  | quoted
  | post

/-- One line as csv.reader(fh, delimiter "=") sees it: fields split on
every unquoted "=", double-quote quoting, a doubled quote inside a quoted
field denoting a literal quote. cur is the field being built, acc the
fields already complete. -/
def csvAux : CsvMode → Str → Str → List Str → List Str
  | _, [], cur, acc => acc ++ [cur]
  | .start, c :: rest, cur, acc =>
    if c = '"' then csvAux .quoted rest cur acc
    else if c = '=' then csvAux .start rest [] (acc ++ [cur])
    else csvAux .unquoted rest (cur ++ [c]) acc
  | .unquoted, c :: rest, cur, acc =>
    if c = '=' then csvAux .start rest [] (acc ++ [cur])
    else csvAux .unquoted rest (cur ++ [c]) acc
  | .quoted, c :: rest, cur, acc =>
    if c = '"' then csvAux .post rest cur acc
    else csvAux .quoted rest (cur ++ [c]) acc
  | .post, c :: rest, cur, acc =>
    if c = '=' then csvAux .start rest [] (acc ++ [cur])
    else if c = '"' then csvAux .quoted rest (cur ++ ['"']) acc
    else csvAux .post rest (cur ++ [c]) acc

/-- csv.reader yields an empty row for a blank line, and otherwise splits
the line into fields on the "=" delimiter. -/
def csvParseLine (l : Str) : List Str :=
  match l with
  | [] => []
  | _ => csvAux .start l [] []

/-- dict(rows): every row must be a key-value pair of exactly two fields,
otherwise dict raises; a later binding of a key overrides an earlier one. -/
def dictOfRowsGo : List (List Str) → List (Str × Str) → Except String (List (Str × Str))
  | [], acc => .ok acc
  | [k, v] :: rest, acc => dictOfRowsGo rest (ainsert acc k v)
  | _ :: _, _ => .error "dictionary update sequence element has bad length"

def dictOfRows (rows : List (List Str)) : Except String (List (Str × Str)) :=
  dictOfRowsGo rows []

/-- The two os-release candidate files of a filesystem root, as line lists
(without terminators) when the file exists. -/
structure RootFs where
  etc : Option (List Str)
  usrLib : Option (List Str)
deriving DecidableEq

/-- Defaults from man 5 os-release, preloaded before any file is parsed. -/
def osreleaseDefaults : List (Str × Str) :=
  [("NAME".data, "Linux".data), ("ID".data, "linux".data), ("PRETTY_NAME".data, "Linux".data)]

structure OSrelease where
  case_sensitive : Bool
  exact : Bool
  fname : String
  data : List (Str × Str)
deriving DecidableEq

/-- The loop over candidate filenames: the first existing file is chosen. -/
def findRelease : List (String × Option (List Str)) → Option (String × List Str)
  | [] => none
  | (n, some c) :: _ => some (n, c)
  | (_, none) :: rest => findRelease rest

/-- OSrelease.__init__: candidate order etc/os-release then
usr/lib/os-release; parse the first existing file with the csv reader and
replace the defaults with the parsed dict; keep the defaults when neither
exists. dict construction can raise on a malformed row, which propagates. -/
def OSrelease.init (fs : RootFs) (case_sensitive exact : Bool) : Except String OSrelease :=
  match findRelease [("etc/os-release", fs.etc), ("usr/lib/os-release", fs.usrLib)] with
  | none => .ok (OSrelease.mk case_sensitive exact "" osreleaseDefaults)
  | some (n, c) =>
    (dictOfRows (c.map csvParseLine)).map fun d => OSrelease.mk case_sensitive exact n d

def noAttrMsg (a : Str) : String :=
  "module OSrelease has no attribute " ++ String.mk a

/-- OSrelease.__getattr__: upper-case the attribute unless case-sensitive,
raise AttributeError in exact mode when the key is missing, otherwise look
it up with empty-string default. -/
def OSrelease.getattr (o : OSrelease) (attr : Str) : Except String Str :=
  let a := if !o.case_sensitive then attr.map Char.toUpper else attr
  if o.exact = true ∧ alookup o.data a = none then .error (noAttrMsg a)
  else .ok ((alookup o.data a).getD [])

/-- A value in the sb_args dict built by main(): either a raw option string
or the coerced boolean for the upgrade key. -/
inductive OptVal where
  | str (s : Str)
  | bool (b : Bool)
deriving DecidableEq

/-- kv.partition at the first "=": the pair (before, after). Callers check
that kv contains "=" first. -/
def partitionEq : Str → Str × Str
  | [] => ([], [])
  | c :: rest =>
    if c = '=' then ([], rest)
    else (c :: (partitionEq rest).1, (partitionEq rest).2)

def upgradeTrueValues : List Str :=
  ["y".data, "yes".data, "t".data, "true".data]

/-- main(): the value of the upgrade key is lower-cased and coerced to a
boolean, true exactly on y, yes, t, true; every other key keeps its string
value. Char.toLower models str.lower on the ASCII option strings. -/
def coerceOpt (k v : Str) : OptVal :=
  if k = "upgrade".data then
    if v.map Char.toLower ∈ upgradeTrueValues then .bool true else .bool false
  else .str v

/-- The option loop of main(): each repeatable -o key=value argument with an
"=" is split at the first "=" and stored into sb_args; an argument without
"=" is skipped without any diagnostic. -/
def processOptions : List (Str × OptVal) → List Str → List (Str × OptVal)
  | acc, [] => acc
  | acc, kv :: rest =>
    if kv.contains '=' then
      processOptions (ainsert acc (partitionEq kv).1 (coerceOpt (partitionEq kv).1 (partitionEq kv).2)) rest
    else processOptions acc rest

/-- A file on disk: its content and its permission bits. -/
structure FileData where
  content : String
  perms : Nat
deriving DecidableEq

/-- An invocation of the external singularity binary. -/
inductive Event where
  | build (imagePath spec : String)
  | exec (argv : List String)
deriving DecidableEq

/-- A JSON value inside a Homebridge platforms entry: a string or a flat
object, which is all the config handling of the source distinguishes. -/
inductive JVal where
  | str (s : String)
  | obj (kvs : List (String × String))
deriving DecidableEq

/-- One entry of the platforms array of config.json. -/
structure HbPlatform where
  fields : List (String × JVal)
deriving DecidableEq

/-- The parsed config.json: its platforms array plus the remaining keys. -/
structure HbConfig where
  platforms : List HbPlatform
  rest : List (String × JVal)
deriving DecidableEq

/-- The world a build runs against: the filesystem (files and directories by
absolute path), the trace of external invocations, and the host facts that
the program inspects. imageOsRelease is the os-release content the built
base image provides and hbConfig the config.json the Homebridge installer
generates; both come from external tools and are oracles of the model. -/
structure World where
  files : List (String × FileData)
  dirs : List String
  events : List Event
  user : String
  proc : List (Str × Cmdline)
  archBits : String
  machine : String
  singularityProg : Option String
  imageOsRelease : RootFs
  hostLocaltime : FileData
  hbConfig : HbConfig

/-- The effect monad of the pipeline: state on World plus a fatal error
channel; an error preserves the state reached so far, as a propagating
Python exception does. -/
def M (α : Type) : Type :=
  World → Except String α × World

def M.run {α : Type} (x : M α) (w : World) : Except String α × World :=
  x w

instance : Monad M where
  pure a := fun w => (.ok a, w)
  bind x f := fun w =>
    match x w with
    | (.ok a, w2) => (f a) w2
    | (.error e, w2) => (.error e, w2)

def M.throw {α : Type} (e : String) : M α :=
  fun w => (.error e, w)

def M.get : M World :=
  fun w => (.ok w, w)

def M.modifyW (f : World → World) : M Unit :=
  fun w => (.ok (), f w)

def liftE {α : Type} : Except String α → M α
  | .ok a => pure a
  | .error e => M.throw e

/-- cmd.split() on the whitespace-separated command strings of the source. -/
def splitWs (s : String) : List String :=
  (s.splitOn " ").filter (fun t => t != "")

/-- Path(base, rel): an absolute rel discards base, as pathlib does. -/
def pathJoin (base rel : String) : String :=
  match rel.data with
  | '/' :: _ => rel
  | _ => base ++ "/" ++ rel

def pathExists (w : World) (p : String) : Bool :=
  (alookup w.files p).isSome || w.dirs.contains p

/-- Data for mkfile: a literal string or a list of lines. -/
inductive FileContent where
  | str (s : String)
  | lines (ls : List String)
deriving DecidableEq

/-- A list of lines is joined with newlines and a trailing newline added. -/
def joinLines (ls : List String) : String :=
  String.intercalate "\n" ls ++ "\n"

def contentOf : FileContent → String
  | .str d => d
  | .lines ls => joinLines ls

structure SingularityS where
  image_path : String
  prog : String
deriving DecidableEq

/-- Singularity.__init__: refuse an already-existing image path and require
the singularity binary on PATH. The cwd-joining and resolve() of the source
are modelled as identity: image paths are taken as already resolved. -/
def Singularity.init (image_path : String) : M SingularityS := do
  let w ← M.get
  if pathExists w image_path then
    M.throw ("refusing to overwrite " ++ image_path)
  else
    match w.singularityProg with
    | none => M.throw "singularity binary not in PATH"
    | some prog => pure (SingularityS.mk image_path prog)

/-- Singularity.build: invoke the external tool, which materializes the
sandbox directory at the image path. -/
def Singularity.build (s : SingularityS) (spec : String) : M Unit :=
  M.modifyW fun w =>
    { w with
      events := w.events ++ [.build s.image_path spec]
      dirs := w.dirs ++ [s.image_path] }

/-- Singularity.exec: run a command inside the sandbox; admin requests
fakeroot and writable mode. The full printed argv is recorded. -/
def Singularity.exec (s : SingularityS) (cmd : List String) (admin : Bool) : M Unit :=
  M.modifyW fun w =>
    { w with
      events := w.events ++
        [.exec ([s.prog, "exec"] ++ (if admin then ["--fakeroot", "--writable"] else [])
          ++ [s.image_path] ++ cmd)] }

/-- Singularity.mkfile: refuse to overwrite an existing target, otherwise
write the content (lines joined by joinLines) and set the permission bits.
The source default for perms is 0o644. -/
def Singularity.mkfile (s : SingularityS) (rel : String) (data : FileContent) (perms : Nat) : M Unit := do
  let w ← M.get
  if pathExists w (pathJoin s.image_path rel) then
    M.throw ("refusing to overwrite " ++ pathJoin s.image_path rel)
  else
    M.modifyW fun w2 =>
      { w2 with
        files := ainsert w2.files (pathJoin s.image_path rel) (FileData.mk (contentOf data) perms) }

/-- Singularity.localtime: replace etc/localtime in the sandbox with the
host file, content and mode bits. -/
def Singularity.localtime (s : SingularityS) : M Unit :=
  M.modifyW fun w =>
    { w with files := ainsert w.files (pathJoin s.image_path "etc/localtime") w.hostLocaltime }

/-- Singularity.mkenv: write the late-sourced shell profile file. The
single-quote character is built explicitly to keep the generated text
identical to the source. -/
def Singularity.mkenv (s : SingularityS) (name tag editor editor_args : String) : M Unit :=
  let sq := String.singleton (Char.ofNat 39)
  let data :=
    [ "#!/bin/sh",
      "export EDITOR=" ++ sq ++ editor ++ sq,
      "export EDITOR_ARGUMENTS=" ++ sq ++ editor_args ++ sq,
      "prompt=" ++ sq ++ "#" ++ sq,
      "grep -q " ++ sq ++ "^overlay /" ++ sq ++ " /proc/mounts && prompt=" ++ sq ++ "$" ++ sq ]
  let ps1base := "export PS1=\"(" ++ name
  let ps1tagged := if tag != "" then ps1base ++ ":" ++ tag else ps1base
  let ps1 := ps1tagged ++ ") $USER@$SINGULARITY_NAME \\w $prompt \""
  Singularity.mkfile s ".singularity.d/env/99-zzzzzzzz-final-env.sh" (.lines (data ++ [ps1])) 0o755

/-- Singularity.helpers: the three convenience scripts. -/
def Singularity.helpers (s : SingularityS) : M Unit := do
  Singularity.mkfile s "usr/local/bin/ll"
    (.lines ["#!/bin/sh", "/bin/ls --color=auto -lFh \"$@\""]) 0o755
  Singularity.mkfile s "usr/local/bin/la"
    (.lines ["#!/bin/sh", "/bin/ls --color=auto -lFha \"$@\""]) 0o755
  Singularity.mkfile s "usr/local/bin/e"
    (.lines ["#!/bin/sh", "test -z \"$EDITOR\" && EDITOR=\"vi\"", "$EDITOR $EDITOR_ARGUMENTS \"$@\""]) 0o755

inductive Distro where
  | alpine
  | fedora
  | ubuntu
deriving DecidableEq

/-- The state of a DistroDocker object: its sandbox handle, which distro
variant supplies the package verbs, the editor settings, the update
memoization flag and the package list. -/
structure DistroDockerS where
  sing : SingularityS
  distro : Distro
  editor : String
  editor_args : String
  updated : Bool
  pkgs : List String
deriving DecidableEq

/-- update_distro per variant; the base implementation is a no-op and
Fedora does not override it. -/
def DistroDocker.update_distro (st : DistroDockerS) : M Unit :=
  match st.distro with
  | .alpine => Singularity.exec st.sing (splitWs "apk update") true
  | .fedora => pure ()
  | .ubuntu => Singularity.exec st.sing (splitWs "apt -y update") true

def DistroDocker.upgrade_distro (st : DistroDockerS) : M Unit :=
  match st.distro with
  | .alpine => Singularity.exec st.sing (splitWs "apk upgrade") true
  | .fedora => Singularity.exec st.sing (splitWs "dnf -y upgrade") true
  | .ubuntu => Singularity.exec st.sing (splitWs "apt -y upgrade") true

def DistroDocker.install_distro (st : DistroDockerS) (pkg_list : List String) : M Unit :=
  match st.distro with
  | .alpine => Singularity.exec st.sing (["apk", "add"] ++ pkg_list) true
  | .fedora => Singularity.exec st.sing (["dnf", "-y", "install"] ++ pkg_list) true
  | .ubuntu => Singularity.exec st.sing (["apt", "-y", "install"] ++ pkg_list) true

/-- DistroDocker.update: run update_distro only if this build has not
updated yet, then remember that it has. -/
def DistroDocker.update (st : DistroDockerS) : M DistroDockerS := do
  if !st.updated then do
    DistroDocker.update_distro st
    pure { st with updated := true }
  else pure st

/-- Calling the generic update step n times in a row within one build. -/
def DistroDocker.updates (st : DistroDockerS) : Nat → M DistroDockerS
  | 0 => pure st
  | n + 1 => do
    let st2 ← DistroDocker.update st
    DistroDocker.updates st2 n

def DistroDocker.upgrade (st : DistroDockerS) : M DistroDockerS := do
  let st2 ← DistroDocker.update st
  DistroDocker.upgrade_distro st2
  pure st2

def DistroDocker.install (st : DistroDockerS) : M DistroDockerS := do
  if st.pkgs.isEmpty then pure st
  else do
    let st2 ← DistroDocker.update st
    DistroDocker.install_distro st2 st2.pkgs
    pure st2

/-- DistroDocker.mkenv: read the identity of the freshly built image back
out of its os-release (an oracle of the world) and generate the profile. -/
def DistroDocker.mkenvStep (st : DistroDockerS) : M Unit := do
  let w ← M.get
  let o ← liftE (OSrelease.init w.imageOsRelease false false)
  let name ← liftE (OSrelease.getattr o "id".data)
  let tagv ← liftE (OSrelease.getattr o "version_id".data)
  Singularity.mkenv st.sing (String.mk name) (String.mk tagv) st.editor st.editor_args

/-- getattr(self, fn_name)() for one extra step; an unknown name is an
AttributeError. -/
def DistroDocker.runExtra (st : DistroDockerS) (fn : String) : M DistroDockerS := do
  match fn with
  | "localtime" => do
    Singularity.localtime st.sing
    pure st
  | "helpers" => do
    Singularity.helpers st.sing
    pure st
  | "mkenv" => do
    DistroDocker.mkenvStep st
    pure st
  | "install" => DistroDocker.install st
  | "upgrade" => DistroDocker.upgrade st
  | "update" => DistroDocker.update st
  | _ => M.throw ("object has no attribute " ++ fn)

/-- DistroDocker.__init__: adjust the package list for a non-default
editor, build the extras schedule, create the sandbox handle, build from
the docker spec, then run the extras in order. -/
def DistroDocker.init (distro : Distro) (name image_path tag editor editor_args extras pkgs : String)
    (upgrade : Bool) : M DistroDockerS := do
  let pkgs := if editor != "vi" then pkgs ++ " " ++ editor else pkgs
  let extras := splitWs extras
  let extras := if pkgs != "" && !extras.contains "install" then extras ++ ["install"] else extras
  let extras := if upgrade then extras ++ ["upgrade"] else extras
  let ddPkgs := splitWs pkgs
  let image_path := if image_path == "" then name else image_path
  let s ← Singularity.init image_path
  Singularity.build s ("docker://" ++ name ++ ":" ++ tag)
  let st := DistroDockerS.mk s distro editor editor_args false ddPkgs
  List.foldlM DistroDocker.runExtra st extras

def Alpine.init (image_path tag pkgs : String) (upgrade : Bool) : M DistroDockerS :=
  DistroDocker.init .alpine "alpine" image_path tag "nano" "" "localtime helpers mkenv" pkgs upgrade

def Fedora.init (image_path tag pkgs : String) (upgrade : Bool) : M DistroDockerS :=
  DistroDocker.init .fedora "fedora" image_path tag "nano" "" "localtime helpers mkenv" pkgs upgrade

def Ubuntu.init (image_path tag pkgs : String) (upgrade : Bool) : M DistroDockerS :=
  DistroDocker.init .ubuntu "ubuntu" image_path tag "nano" "" "localtime helpers mkenv" pkgs upgrade

/-- The scan loop of UnifiNetworkController.__init__ over the process
snapshot, with its elif and its early break once both flags hold. Returns
(ps_haveged, ps_unc). -/
def unifiScan : List Str → Bool → Bool → Bool × Bool
  | [], hv, unc => (hv, unc)
  | n :: rest, hv, unc =>
    let unc2 := if n = "unifi".data then true else unc
    let hv2 := if ¬n = "unifi".data ∧ endsWithL "/haveged".data n then true else hv
    if hv2 && unc2 then (hv2, unc2) else unifiScan rest hv2 unc2

/-- UnifiNetworkController.__init__: refuse the root host identity, refuse
a running unifi process, then build the Ubuntu sandbox (focal, or xenial on
32-bit ARM), add the UniFi key and repository, force a package-index
update, pin the JDK family off xenial, install the controller and clean
up. Prints, including the deferred haveged warning, have no effect on the
world and are not modelled. -/
def UnifiNetworkController.init (image_path : String) : M Unit := do
  let w ← M.get
  if w.user = "root" then
    M.throw "UNC does not support root-owned containers"
  else do
    let names ← liftE (ps_bins w.proc)
    let scan := unifiScan names false false
    if scan.2 then
      M.throw "UNC requires all existing running versions on this host to be stopped before installing"
    else do
      let pkgs := "dialog less logrotate procps apt-transport-https ca-certificates gnupg wget mongodb-server"
      let image_path := if image_path == "" then "unc" else image_path
      let tag := if w.archBits == "32bit" && w.machine.startsWith "arm" then "xenial" else "focal"
      let st ← Ubuntu.init image_path tag pkgs true
      Singularity.exec st.sing (splitWs "apt-key adv --keyserver keyserver.ubuntu.com --recv 06E85760C0A52C50") true
      Singularity.mkfile st.sing "etc/apt/sources.list.d/100-ubnt-unifi.list"
        (.lines ["deb https://www.ui.com/downloads/unifi/debian stable ubiquiti"]) 0o644
      DistroDocker.update_distro st
      if tag != "xenial" then
        Singularity.exec st.sing (splitWs "apt-mark hold openjdk-1?-*") true
      else pure ()
      DistroDocker.install_distro st ["openjdk-8-jre-headless", "unifi"]
      Singularity.exec st.sing (splitWs "apt autoremove -y") true
      pure ()

/-- pl.get("platform", "") == "config": true exactly when the entry has a
platform field holding the string config. -/
def platformIsConfig (pl : HbPlatform) : Bool :=
  match alookup pl.fields "platform" with
  | some (.str s) => s == "config"
  | _ => false

/-- The log object injected into the config platform entry. -/
def hbLogValue : JVal :=
  .obj [("method", "file"), ("path", "/tmp/homebridge.log")]

/-- The injection loop: find the first platforms entry whose platform field
is config, set its log key and stop; report whether one was found. -/
def injectLog : List HbPlatform → List HbPlatform × Bool
  | [] => ([], false)
  | pl :: rest =>
    if platformIsConfig pl then
      (HbPlatform.mk (ainsert pl.fields "log" hbLogValue) :: rest, true)
    else
      ((pl :: (injectLog rest).1), (injectLog rest).2)

def quoteJ (s : String) : String :=
  "\"" ++ s ++ "\""

def dumpJVal : JVal → String
  | .str s => quoteJ s
  | .obj kvs =>
    "\x7b" ++ String.intercalate ", " (kvs.map fun p => quoteJ p.1 ++ ": " ++ quoteJ p.2) ++ "\x7d"

def dumpPlatform (pl : HbPlatform) : String :=
  "\x7b" ++ String.intercalate ", " (pl.fields.map fun p => quoteJ p.1 ++ ": " ++ dumpJVal p.2) ++ "\x7d"

/-- json.dumps of the modified config; a plain rendering, since nothing
verified depends on the exact formatting of the staged payload. -/
def dumpConfig (c : HbConfig) : String :=
  "\x7b" ++
    String.intercalate ", "
      ((c.rest.map fun p => quoteJ p.1 ++ ": " ++ dumpJVal p.2) ++
        ["\"platforms\": [" ++ String.intercalate ", " (c.platforms.map dumpPlatform) ++ "]"]) ++
  "\x7d"

/-- The config.json setup of Homebridge.__init__: inject file logging into
the config platform entry, fail fatally when no such entry exists, and
only then stage the modified JSON and move it into place in-sandbox. -/
def Homebridge.injectStep (s : SingularityS) (data : HbConfig) : M Unit := do
  if !(injectLog data.platforms).2 then
    M.throw "unable to add logging to config.json"
  else do
    Singularity.mkfile s "/homebridge_config.json"
      (.str (dumpConfig (HbConfig.mk (injectLog data.platforms).1 data.rest))) 0o644
    Singularity.exec s (splitWs "mv -v /homebridge_config.json /root/.homebridge/config.json") true

/-- Homebridge.__init__: add avahi-daemon to the package list unless one is
running, build the Ubuntu focal sandbox, install Node.js and Homebridge,
create the service home directory, then run the config injection step on
the installer-generated config.json (an oracle of the world). -/
def Homebridge.init (image_path : String) : M Unit := do
  let w ← M.get
  let names ← liftE (ps_bins w.proc)
  let ps_avahid := names.any (listHasSub "avahi-daemon:".data)
  let pkgs := "dialog less gcc g++ make python net-tools wget" ++
    (if !ps_avahid then " avahi-daemon" else "")
  let image_path := if image_path == "" then "hb" else image_path
  let st ← Ubuntu.init image_path "focal" pkgs true
  Singularity.exec st.sing (splitWs "wget -O /nodejs_lts_installer.bash https://deb.nodesource.com/setup_16.x") true
  Singularity.exec st.sing (splitWs "bash /nodejs_lts_installer.bash") true
  DistroDocker.install_distro st ["nodejs"]
  Singularity.exec st.sing (splitWs "npm install --global --unsafe-perm homebridge homebridge-config-ui-x") true
  Singularity.exec st.sing (splitWs "hb-service install --user root") true
  M.modifyW fun w2 => { w2 with dirs := w2.dirs ++ [pathJoin st.sing.image_path "root/.homebridge"] }
  let w3 ← M.get
  Homebridge.injectStep st.sing w3.hbConfig

/-- A concrete host world for the evaluated witnesses. -/
def w0 : World :=
  World.mk [] [] [] "alice" [] "64bit" "x86_64" (some "/usr/bin/singularity")
    (RootFs.mk none none) (FileData.mk "UTC0" 420) (HbConfig.mk [] [])

def sing0 : SingularityS :=
  SingularityS.mk "/img" "/usr/bin/singularity"

def w0made : World :=
  { w0 with
    files := ainsert w0.files (pathJoin sing0.image_path "etc/motd")
      (FileData.mk (contentOf (.lines ["hello", "world"])) 420) }

def dd0 : DistroDockerS :=
  DistroDockerS.mk sing0 .ubuntu "nano" "" false []

def hbNoConfig : HbConfig :=
  HbConfig.mk [HbPlatform.mk [("platform", .str "configx")], HbPlatform.mk []] []

def dd0u : DistroDockerS :=
  { dd0 with updated := true }

def wRoot : World :=
  { w0 with user := "root" }

theorem M.run_bind {α β : Type} (x : M α) (f : α → M β) (w : World) :
    (x >>= f).run w =
      match x.run w with
      | (.ok a, w2) => (f a).run w2
      | (.error e, w2) => (.error e, w2) := rfl

theorem M.run_pure {α : Type} (a : α) (w : World) :
    (pure a : M α).run w = (.ok a, w) := rfl

theorem M.run_throw {α : Type} (e : String) (w : World) :
    (M.throw e : M α).run w = (.error e, w) := rfl

theorem M.run_get (w : World) : M.get.run w = (.ok w, w) := rfl

theorem M.run_modifyW (f : World → World) (w : World) :
    (M.modifyW f).run w = (.ok (), f w) := rfl

theorem alookup_ainsert_self {α β : Type} [DecidableEq α] (m : List (α × β)) (k : α) (v : β) :
    alookup (ainsert m k v) k = some v := by
  induction m with
  | nil => simp [ainsert, alookup]
  | cons p rest ih =>
    by_cases h : p.1 = k
    · simpa [ainsert, h] using ih
    · simp [ainsert, alookup, h, ih]

/-- C1: on a sandbox handle, mkfile (write_file) at a target path that does
not exist creates the file with the given content (a list of lines joined
with newlines plus a trailing newline) and the given permission bits, and
at a target path that already exists it raises and leaves the world, hence
the existing file content and permission bits, unchanged. -/
theorem mkfile_creates_fresh_and_rejects_existing
    (s : SingularityS) (rel : String) (data : FileContent) (perms : Nat) (w : World) :
    (pathExists w (pathJoin s.image_path rel) = false →
      (Singularity.mkfile s rel data perms).run w =
        (.ok (), { w with files := ainsert w.files (pathJoin s.image_path rel) (FileData.mk (contentOf data) perms) }) ∧
      alookup (ainsert w.files (pathJoin s.image_path rel) (FileData.mk (contentOf data) perms))
        (pathJoin s.image_path rel) = some (FileData.mk (contentOf data) perms)) ∧
    (pathExists w (pathJoin s.image_path rel) = true →
      (Singularity.mkfile s rel data perms).run w =
        (.error ("refusing to overwrite " ++ pathJoin s.image_path rel), w)) ∧
    (∀ ls, contentOf (.lines ls) = String.intercalate "\n" ls ++ "\n") := by
  refine ⟨fun h => ⟨?_, alookup_ainsert_self _ _ _⟩, fun h => ?_, fun ls => rfl⟩
  · simp [Singularity.mkfile, M.run_bind, M.run_get, M.run_modifyW, h]
  · simp [Singularity.mkfile, M.run_bind, M.run_get, M.run_throw, h]

/-- C1 witness: write_file twice at one concrete path; the first call
succeeds and produces the file, the second fails leaving the world as it
was. -/
theorem mkfile_twice_witness :
    (Singularity.mkfile sing0 "etc/motd" (.lines ["hello", "world"]) 420).run w0 =
      (.ok (), w0made) ∧
    (Singularity.mkfile sing0 "etc/motd" (.lines ["hello", "world"]) 420).run w0made =
      (.error ("refusing to overwrite " ++ pathJoin sing0.image_path "etc/motd"), w0made) :=
  ⟨((mkfile_creates_fresh_and_rejects_existing sing0 "etc/motd" (.lines ["hello", "world"]) 420 w0).1
      rfl).1,
    (mkfile_creates_fresh_and_rejects_existing sing0 "etc/motd" (.lines ["hello", "world"]) 420
      w0made).2.1 rfl⟩

/-- C9: an option string upgrade=v stores into sb_args the boolean that is
true exactly when the lower-cased v is one of y, yes, t, true; every other
value, however malformed, yields false and never an error. -/
theorem upgrade_option_coercion (v : Str) (acc : List (Str × OptVal)) :
    processOptions acc ["upgrade".data ++ '=' :: v] =
      ainsert acc "upgrade".data (OptVal.bool (decide (v.map Char.toLower ∈ upgradeTrueValues))) := by
  have h1 : processOptions acc ["upgrade".data ++ '=' :: v] =
      ainsert acc "upgrade".data (coerceOpt "upgrade".data v) := rfl
  rw [h1]
  by_cases h : v.map Char.toLower ∈ upgradeTrueValues <;> simp [coerceOpt, h]

/-- C10: a repeatable option argument without an equals sign is silently
dropped by the option loop: the resulting sb_args are exactly those of the
same invocation without that argument, and no error is raised. -/
theorem options_without_eq_ignored (acc : List (Str × OptVal)) (pre post : List Str) (kv : Str)
    (h : kv.contains '=' = false) :
    processOptions acc (pre ++ kv :: post) = processOptions acc (pre ++ post) := by
  have h2 : '=' ∉ kv := by simpa using h
  induction pre generalizing acc with
  | nil => simp [processOptions, h2]
  | cons p pre ih =>
    by_cases hp : '=' ∈ p <;> simp [processOptions, hp] <;> exact ih _

/-- C10 witness: a concrete option list with a stray no-equals argument. -/
theorem options_without_eq_ignored_witness :
    processOptions [] (["a=b".data] ++ "xyz".data :: []) =
      processOptions [] (["a=b".data] ++ []) :=
  options_without_eq_ignored [] ["a=b".data] [] "xyz".data (by decide)

theorem update_noop (st : DistroDockerS) (h : st.updated = true) (w : World) :
    (DistroDocker.update st).run w = (.ok st, w) := by
  simp [DistroDocker.update, h, M.run_pure]

theorem updates_noop (st : DistroDockerS) (h : st.updated = true) (n : Nat) (w : World) :
    (DistroDocker.updates st n).run w = (.ok st, w) := by
  induction n generalizing w with
  | zero => simp [DistroDocker.updates, M.run_pure]
  | succ n ih => simp [DistroDocker.updates, M.run_bind, update_noop st h, ih]

theorem updates_once (st : DistroDockerS) (h : st.updated = false) (n : Nat) (hn : 1 ≤ n)
    (w : World) :
    (DistroDocker.updates st n).run w =
      (DistroDocker.update_distro st >>= fun _ => pure { st with updated := true }).run w := by
  obtain ⟨m, rfl⟩ : ∃ m, n = m + 1 := ⟨n - 1, (Nat.succ_pred_eq_of_pos hn).symm⟩
  have hu : (DistroDocker.update st).run w =
      (DistroDocker.update_distro st >>= fun _ => pure { st with updated := true }).run w := by
    simp [DistroDocker.update, h]
  simp only [DistroDocker.updates, M.run_bind, hu]
  rcases hx : (DistroDocker.update_distro st).run w with ⟨r, w2⟩
  cases r with
  | ok a => simp [M.run_bind, hx, M.run_pure, updates_noop]
  | error e => simp [M.run_bind, hx]

/-- C4: within one build, any two-or-more calls to the memoized update step
have exactly the effect of one execution of the distro-specific
update_distro command; the calls after the first are no-ops. -/
theorem update_memoized_single_update_distro (st : DistroDockerS) (n : Nat) (w : World)
    (h : st.updated = false) (hn : 2 ≤ n) :
    (DistroDocker.updates st n).run w =
      (DistroDocker.update_distro st >>= fun _ => pure { st with updated := true }).run w :=
  updates_once st h n (le_trans one_le_two hn) w

/-- C4 witness: two update calls on a concrete fresh Ubuntu build state. -/
theorem update_memoized_witness :
    (DistroDocker.updates dd0 2).run w0 =
      (DistroDocker.update_distro dd0 >>= fun _ => pure dd0u).run w0 :=
  update_memoized_single_update_distro dd0 2 w0 rfl (le_refl 2)

theorem injectLog_not_found (ps : List HbPlatform) (h : ∀ pl ∈ ps, platformIsConfig pl = false) :
    (injectLog ps).2 = false := by
  induction ps with
  | nil => rfl
  | cons pl rest ih =>
    have hpl := h pl (List.mem_cons_self _ _)
    simp [injectLog, hpl, ih fun q hq => h q (List.mem_cons_of_mem _ hq)]

/-- C5: when no platforms entry of the generated config has a platform
field equal to config, the injection step of the Homebridge recipe fails
fatally and leaves the world unchanged: neither the staging file write nor
the in-sandbox move happens. -/
theorem homebridge_inject_missing_config_fails (s : SingularityS) (data : HbConfig) (w : World)
    (h : ∀ pl ∈ data.platforms, platformIsConfig pl = false) :
    (Homebridge.injectStep s data).run w = (.error "unable to add logging to config.json", w) := by
  have hf : (injectLog data.platforms).2 = false := injectLog_not_found _ h
  simp [Homebridge.injectStep, hf, M.run_throw]

/-- C5 witness: a concrete config whose platforms carry no config entry. -/
theorem homebridge_inject_witness :
    (Homebridge.injectStep sing0 hbNoConfig).run w0 =
      (.error "unable to add logging to config.json", w0) :=
  homebridge_inject_missing_config_fails sing0 hbNoConfig w0 (by decide)

theorem setAdd_toFinset (s : List Str) (x : Str) :
    (setAdd s x).toFinset = insert x s.toFinset := by
  unfold setAdd
  split
  · next hmem => rw [Finset.insert_eq_self.mpr (List.mem_toFinset.mpr hmem)]
  · ext a
    simp [List.toFinset_append, or_comm]

theorem psBinsGo_ok_toFinset (proc : List (Str × Cmdline)) :
    ∀ (acc l : List Str), psBinsGo proc acc = .ok l →
      l.toFinset = acc.toFinset ∪ (specSnapshotGlob proc).toFinset := by
  induction proc with
  | nil =>
    intro acc l h
    simp only [psBinsGo] at h
    cases h
    simp [specSnapshotGlob]
  | cons e rest ih =>
    intro acc l h
    rcases e with ⟨n, c⟩
    by_cases hd : digitInitial n
    · cases c with
      | absent =>
        simp only [psBinsGo, hd, if_true] at h
        simpa [specSnapshotGlob, hd] using ih acc l h
      | vanish => simp [psBinsGo, hd] at h
      | present d =>
        simp only [psBinsGo, hd, if_true] at h
        by_cases hf : firstField (readline d) ≠ []
        · rw [if_pos hf] at h
          have h2 := ih _ _ h
          rw [setAdd_toFinset] at h2
          rw [h2]
          ext a
          simp [specSnapshotGlob, hd, hf]
        · rw [if_neg hf] at h
          have h2 := ih _ _ h
          rw [h2]
          simp [specSnapshotGlob, hd, hf]
    · cases c <;> simp only [psBinsGo, hd, if_false] at h <;>
        simpa [specSnapshotGlob, hd] using ih acc l h

/-- C6 amended: the snapshot ps_bins returns is exactly the set of
non-empty first NUL-separated fields of the records of directories whose
names start with a decimal digit, as the glob matches them, not only the
purely numeric ones; on the particular root with PID directories 1
(cmdline unifi NUL), 2 (empty cmdline) and non-numeric foo the snapshot is
exactly the singleton unifi. -/
theorem ps_bins_glob_snapshot :
    (∀ (proc : List (Str × Cmdline)) (l : List Str),
        ps_bins proc = .ok l → l.toFinset = (specSnapshotGlob proc).toFinset) ∧
    ps_bins [("1".data, .present "unifi\x00".data), ("2".data, .present "".data),
      ("foo".data, .present "x".data)] = .ok ["unifi".data] := by
  constructor
  · intro proc l h
    simpa using psBinsGo_ok_toFinset proc [] l h
  · rfl

/-- C6 witness: the general half of ps_bins_glob_snapshot applied on a
concrete root whose digit-initial directory is not purely numeric. -/
theorem ps_bins_glob_snapshot_witness :
    (["bash".data] : List Str).toFinset =
      (specSnapshotGlob [("42abc".data, .present "bash\x00-l\x00".data)]).toFinset :=
  ps_bins_glob_snapshot.1 [("42abc".data, .present "bash\x00-l\x00".data)] ["bash".data] rfl

/-- C6 counterexample: a root with the single directory 1a, whose name
starts with a digit but is not purely numeric; the code includes its
record in the snapshot while the set the claim describes is empty. -/
theorem ps_bins_nonnumeric_dir_cex :
    ps_bins [("1a".data, .present "evil".data)] = .ok ["evil".data] ∧
    specSnapshotNumeric [("1a".data, .present "evil".data)] = [] ∧
    ¬ (["evil".data] : List Str).toFinset =
      (specSnapshotNumeric [("1a".data, .present "evil".data)]).toFinset := by
  refine ⟨rfl, rfl, ?_⟩
  decide

theorem psBinsGo_vanish_error (proc : List (Str × Cmdline)) :
    ∀ (acc : List Str) (n : Str), (n, Cmdline.vanish) ∈ proc → digitInitial n = true →
      psBinsGo proc acc = .error "No such file or directory" := by
  induction proc with
  | nil => intro acc n h _; exact absurd h (List.not_mem_nil _)
  | cons e rest ih =>
    intro acc n h hd
    rcases e with ⟨m, c⟩
    rcases List.mem_cons.mp h with he | he
    · cases he
      simp [psBinsGo, hd]
    · by_cases hdm : digitInitial m
      · cases c with
        | vanish => simp [psBinsGo, hdm]
        | absent => simp only [psBinsGo, hdm, if_true]; exact ih _ n he hd
        | present d => simp only [psBinsGo, hdm, if_true]; exact ih _ n he hd
      · simp only [psBinsGo, hdm, if_false]; exact ih _ n he hd

/-- C7 amended: ps_bins has no handler for the race with process exit:
when a digit-initial cmdline record that the glob enumerated has vanished
or become unreadable by the time it is opened, the scan raises instead of
skipping the entry. -/
theorem ps_bins_vanish_error (proc : List (Str × Cmdline)) (n : Str)
    (h : (n, Cmdline.vanish) ∈ proc) (hd : digitInitial n = true) :
    ps_bins proc = .error "No such file or directory" :=
  psBinsGo_vanish_error proc [] n h hd

/-- C7 witness: a concrete root with one vanished record. -/
theorem ps_bins_vanish_error_witness :
    ps_bins [("7".data, Cmdline.vanish)] = .error "No such file or directory" :=
  ps_bins_vanish_error [("7".data, Cmdline.vanish)] "7".data (by decide) rfl

/-- C7 counterexample: a readable record followed by a vanished one; the
claim says the scan succeeds with the remaining entries, the code raises. -/
theorem ps_bins_vanish_cex :
    ps_bins [("1".data, .present "a\x00".data), ("2".data, Cmdline.vanish)] =
      .error "No such file or directory" := rfl

/-- C2: etc/os-release is parsed whenever it exists and the result never
depends on usr/lib/os-release; usr/lib/os-release is parsed exactly when it
is the only one present; with neither file the keys NAME, ID and
PRETTY_NAME carry the documented defaults and a lookup of any other key
yields the empty string in default mode and an attribute error in exact
mode. -/
theorem osrelease_selection_and_defaults (cs ex : Bool) :
    (∀ (c : List Str) (usr : Option (List Str)),
        OSrelease.init (RootFs.mk (some c) usr) cs ex =
          (dictOfRows (c.map csvParseLine)).map (fun d => OSrelease.mk cs ex "etc/os-release" d)) ∧
    (∀ (c : List Str),
        OSrelease.init (RootFs.mk none (some c)) cs ex =
          (dictOfRows (c.map csvParseLine)).map (fun d => OSrelease.mk cs ex "usr/lib/os-release" d)) ∧
    (OSrelease.init (RootFs.mk none none) cs ex =
        .ok (OSrelease.mk cs ex "" osreleaseDefaults) ∧
      OSrelease.getattr (OSrelease.mk cs ex "" osreleaseDefaults) "NAME".data = .ok "Linux".data ∧
      OSrelease.getattr (OSrelease.mk cs ex "" osreleaseDefaults) "ID".data = .ok "linux".data ∧
      OSrelease.getattr (OSrelease.mk cs ex "" osreleaseDefaults) "PRETTY_NAME".data =
        .ok "Linux".data ∧
      ∀ (a : Str),
        (if !cs then a.map Char.toUpper else a) ∉
          ["NAME".data, "ID".data, "PRETTY_NAME".data] →
        OSrelease.getattr (OSrelease.mk cs ex "" osreleaseDefaults) a =
          if ex then .error (noAttrMsg (if !cs then a.map Char.toUpper else a)) else .ok []) := by
  refine ⟨fun c usr => rfl, fun c => rfl, rfl, ?_, ?_, ?_, ?_⟩
  · cases cs <;> cases ex <;> rfl
  · cases cs <;> cases ex <;> rfl
  · cases cs <;> cases ex <;> rfl
  · intro a ha
    simp only [List.mem_cons, List.not_mem_nil, or_false, not_or] at ha
    obtain ⟨h1, h2, h3⟩ := ha
    have h1x : ¬("NAME".data = (if !cs then a.map Char.toUpper else a)) := fun hh => h1 hh.symm
    have h2x : ¬("ID".data = (if !cs then a.map Char.toUpper else a)) := fun hh => h2 hh.symm
    have h3x : ¬("PRETTY_NAME".data = (if !cs then a.map Char.toUpper else a)) :=
      fun hh => h3 hh.symm
    simp only [OSrelease.getattr, osreleaseDefaults, alookup, if_neg h1x, if_neg h2x, if_neg h3x]
    cases ex
    · simp
    · simp

/-- C2 witness: exact mode on a root with neither candidate file raises an
attribute error for a key other than the defaulted three. -/
theorem osrelease_defaults_witness :
    OSrelease.getattr (OSrelease.mk false true "" osreleaseDefaults) "FOO".data =
      .error (noAttrMsg ("FOO".data.map Char.toUpper)) :=
  (osrelease_selection_and_defaults false true).2.2.2.2.2.2 "FOO".data (by decide)

theorem csvAux_unquoted_run (K : Str) :
    ∀ (rest cur : Str) (acc : List Str), '=' ∉ K → '"' ∉ K →
      csvAux .unquoted (K ++ '=' :: rest) cur acc = csvAux .start rest [] (acc ++ [cur ++ K]) := by
  induction K with
  | nil =>
    intro rest cur acc _ _
    simp [csvAux]
  | cons c K ih =>
    intro rest cur acc h1 h2
    have hc1 : ¬c = '=' := fun hh => h1 (by simp [hh])
    rw [List.cons_append,
      show csvAux .unquoted (c :: (K ++ '=' :: rest)) cur acc =
        if c = '=' then csvAux .start (K ++ '=' :: rest) [] (acc ++ [cur])
        else csvAux .unquoted (K ++ '=' :: rest) (cur ++ [c]) acc from rfl,
      if_neg hc1,
      ih rest (cur ++ [c]) acc (fun hm => h1 (List.mem_cons_of_mem _ hm))
        (fun hm => h2 (List.mem_cons_of_mem _ hm))]
    simp

theorem csvAux_start_run (K rest : Str) (acc : List Str) (h1 : '=' ∉ K) (h2 : '"' ∉ K) :
    csvAux .start (K ++ '=' :: rest) [] acc = csvAux .start rest [] (acc ++ [K]) := by
  cases K with
  | nil => simp [csvAux]
  | cons c K =>
    have hc1 : ¬c = '=' := fun hh => h1 (by simp [hh])
    have hc2 : ¬c = '"' := fun hh => h2 (by simp [hh])
    rw [List.cons_append,
      show csvAux .start (c :: (K ++ '=' :: rest)) [] acc =
        if c = '"' then csvAux .quoted (K ++ '=' :: rest) [] acc
        else if c = '=' then csvAux .start (K ++ '=' :: rest) [] (acc ++ [[]])
        else csvAux .unquoted (K ++ '=' :: rest) ([] ++ [c]) acc from rfl,
      if_neg hc2, if_neg hc1,
      csvAux_unquoted_run K rest ([] ++ [c]) acc (fun hm => h1 (List.mem_cons_of_mem _ hm))
        (fun hm => h2 (List.mem_cons_of_mem _ hm))]
    simp

theorem csvAux_quoted_run (V : Str) :
    ∀ (rest cur : Str) (acc : List Str), '"' ∉ V →
      csvAux .quoted (V ++ '"' :: rest) cur acc = csvAux .post rest (cur ++ V) acc := by
  induction V with
  | nil =>
    intro rest cur acc _
    simp [csvAux]
  | cons c V ih =>
    intro rest cur acc h
    have hc : ¬c = '"' := fun hh => h (by simp [hh])
    rw [List.cons_append,
      show csvAux .quoted (c :: (V ++ '"' :: rest)) cur acc =
        if c = '"' then csvAux .post (V ++ '"' :: rest) cur acc
        else csvAux .quoted (V ++ '"' :: rest) (cur ++ [c]) acc from rfl,
      if_neg hc,
      ih rest (cur ++ [c]) acc (fun hm => h (List.mem_cons_of_mem _ hm))]
    simp

theorem csvParseLine_quoted (K V : Str) (h1 : '=' ∉ K) (h2 : '"' ∉ K) (h3 : '"' ∉ V) :
    csvParseLine (K ++ '=' :: '"' :: (V ++ ['"'])) = [K, V] := by
  have hline : csvParseLine (K ++ '=' :: '"' :: (V ++ ['"'])) =
      csvAux .start (K ++ '=' :: '"' :: (V ++ ['"'])) [] [] := by
    cases K <;> rfl
  rw [hline, csvAux_start_run K _ _ h1 h2,
    show csvAux .start ('"' :: (V ++ ['"'])) [] ([] ++ [K]) =
      csvAux .quoted (V ++ ['"']) [] ([] ++ [K]) from rfl,
    show V ++ ['"'] = V ++ '"' :: [] from rfl,
    csvAux_quoted_run V [] [] ([] ++ [K]) h3]
  simp [csvAux]

/-- C8 amended: a KEY=VALUE line whose value has an embedded equals sign is
parsed successfully when and only in the csv-quoted form KEY="VALUE": the
whole quoted value, embedded equals included, is then returned by a lookup
of KEY; an unquoted value with an embedded equals makes construction fail
(see the counterexample). -/
theorem osrelease_quoted_eq_value (K V : Str)
    (h1 : '=' ∉ K) (h2 : '"' ∉ K) (h3 : '"' ∉ V) (h4 : '=' ∈ V) :
    OSrelease.init (RootFs.mk (some [K ++ '=' :: '"' :: (V ++ ['"'])]) none) true false =
      .ok (OSrelease.mk true false "etc/os-release" [(K, V)]) ∧
    OSrelease.getattr (OSrelease.mk true false "etc/os-release" [(K, V)]) K = .ok V := by
  constructor
  · have hinit : OSrelease.init (RootFs.mk (some [K ++ '=' :: '"' :: (V ++ ['"'])]) none) true false =
        (dictOfRows ([K ++ '=' :: '"' :: (V ++ ['"'])].map csvParseLine)).map
          (fun d => OSrelease.mk true false "etc/os-release" d) := rfl
    rw [hinit]
    simp only [List.map_cons, List.map_nil, csvParseLine_quoted K V h1 h2 h3]
    rfl
  · simp [OSrelease.getattr, alookup]

/-- C8 counterexample: the line FOO=a=b, a value with an embedded equals
sign and no quoting; the csv reader yields a three-field row and dict
construction raises, so the claim that such a line parses successfully is
false on the code. -/
theorem osrelease_unquoted_eq_value_cex :
    OSrelease.init (RootFs.mk (some ["FOO=a=b".data]) none) false false =
      .error "dictionary update sequence element has bad length" := rfl

/-- C8 witness: the amended theorem on the concrete quoted line. -/
theorem osrelease_quoted_eq_value_witness :
    OSrelease.init
        (RootFs.mk (some ["FOO".data ++ '=' :: '"' :: ("a=b".data ++ ['"'])]) none) true false =
      .ok (OSrelease.mk true false "etc/os-release" [("FOO".data, "a=b".data)]) ∧
    OSrelease.getattr (OSrelease.mk true false "etc/os-release" [("FOO".data, "a=b".data)])
        "FOO".data = .ok "a=b".data :=
  osrelease_quoted_eq_value "FOO".data "a=b".data (by decide) (by decide) (by decide) (by decide)

theorem unifiScan_unc (names : List Str) :
    ∀ (hv unc : Bool), (unifiScan names hv unc).2 = true ↔ (unc = true ∨ "unifi".data ∈ names) := by
  induction names with
  | nil =>
    intro hv unc
    simp [unifiScan]
  | cons n rest ih =>
    intro hv unc
    by_cases hn : n = "unifi".data
    · simp only [unifiScan, if_pos hn, List.mem_cons]
      split_ifs <;> simp_all [ih]
    · have hn' : ¬("unifi".data = n) := fun hh => hn hh.symm
      have ih1 := ih true unc
      have ih2 := ih hv unc
      simp only [unifiScan, if_neg hn, List.mem_cons]
      split_ifs <;> simp_all [Bool.and_eq_true]

/-- C3: when the invoking host user is root, or the host process snapshot
holds an executable path exactly equal to unifi, the network-controller
recipe raises before doing anything: the run ends in the corresponding
error and the world is returned exactly as it was, so the external build
tool was never invoked and no target path came into existence. -/
theorem unc_prechecks_block_build (w : World) (ip : String)
    (h : w.user = "root" ∨ ∃ names, ps_bins w.proc = .ok names ∧ "unifi".data ∈ names) :
    (UnifiNetworkController.init ip).run w =
        (.error "UNC does not support root-owned containers", w) ∨
      (UnifiNetworkController.init ip).run w =
        (.error "UNC requires all existing running versions on this host to be stopped before installing", w) := by
  by_cases hu : w.user = "root"
  · left
    simp [UnifiNetworkController.init, M.run_bind, M.run_get, M.run_throw, hu]
  · right
    rcases h with h | ⟨names, h1, h2⟩
    · exact absurd h hu
    have hscan : (unifiScan names false false).2 = true :=
      (unifiScan_unc names false false).mpr (Or.inr h2)
    simp [UnifiNetworkController.init, M.run_bind, M.run_get, M.run_throw, M.run_pure,
      hu, h1, liftE, hscan]

/-- C3 witness: a concrete world whose invoking user is root. -/
theorem unc_root_precheck_witness :
    (UnifiNetworkController.init "").run wRoot =
        (.error "UNC does not support root-owned containers", wRoot) ∨
      (UnifiNetworkController.init "").run wRoot =
        (.error "UNC requires all existing running versions on this host to be stopped before installing", wRoot) :=
  unc_prechecks_block_build wRoot "" (Or.inl rfl)
